import Mathlib

/-!
Verification development for the Foodify conversational recipe assistant.

The definitions below shallowly embed the behaviours of the repository:
the frontend chat page (`frontend/app/chat/page.tsx`), the planning chat
widget (`frontend/components/ChatPlanning.tsx`), the recipe detail modal
(ingredient quantity scaling), and — where the backend RAG pipeline source
is not part of the snapshot — models written from the specification
document (each such definition is marked `Modelled from the spec:`).

JavaScript numbers are modelled as rationals (ℚ): the functions under
study only multiply, divide and format to one decimal place, and all the
inputs of interest are exact decimal literals.
-/

namespace Foodify

/-! ## Ingredient quantity scaling (RecipeDetailModal, `adjustQuantity`)

Source (recipe detail modal component):
```
const servingMultiplier = servings / recipe.servings;
const adjustQuantity = (quantity?: string) => {
  if (!quantity) return '';
  const num = parseFloat(quantity);
  if (isNaN(num)) return quantity;
  return (num * servingMultiplier).toFixed(1);
};
```
`parseFloat` and `toFixed(1)` are modelled below over ℚ.  The model covers
finite decimal literals with optional sign, fraction and exponent; the
non-finite literal "Infinity" and exotic Unicode whitespace are outside the
model. -/

/-- Numeric value of a decimal digit character, `none` for a non-digit. -/
def digitVal (c : Char) : Option Nat :=
  if c.isDigit then some (c.toNat - Char.toNat '0') else none

/-- Split a character list into its leading run of decimal digits and the rest. -/
def takeDigits : List Char → List Nat × List Char
  | [] => ([], [])
  | c :: cs =>
    match digitVal c with
    | some d =>
      let (ds, rest) := takeDigits cs
      (d :: ds, rest)
    | none => ([], c :: cs)

/-- Value of a digit run read as a base-10 integer. -/
def digitsVal (ds : List Nat) : Nat :=
  ds.foldl (fun a d => 10 * a + d) 0

/-- Value of a digit run read as a fractional part (digits after the point). -/
def fracVal (ds : List Nat) : ℚ :=
  (digitsVal ds : ℚ) / (10 : ℚ) ^ ds.length

/-- Parse the mantissa part of a JS decimal literal: digits, an optional
point and fraction digits.  Fails (as `parseFloat` does with `NaN`) when
no digit is present before or after the point. -/
def parseMantissa (cs : List Char) : Option (ℚ × List Char) :=
  let (ip, r1) := takeDigits cs
  match r1 with
  | '.' :: r2 =>
    let (fp, r3) := takeDigits r2
    if ip.isEmpty && fp.isEmpty then none
    else some ((digitsVal ip : ℚ) + fracVal fp, r3)
  | _ => if ip.isEmpty then none else some ((digitsVal ip : ℚ), r1)

/-- Parse an optional exponent suffix (`e` or `E`, optional sign, digits);
as in JS, the suffix only takes effect when at least one digit follows. -/
def applyExp (m : ℚ) (cs : List Char) : ℚ :=
  match cs with
  | 'e' :: r | 'E' :: r =>
    let (sgn, r1) : Int × List Char :=
      match r with
      | '-' :: r2 => (-1, r2)
      | '+' :: r2 => (1, r2)
      | _ => (1, r)
    let (ds, _) := takeDigits r1
    if ds.isEmpty then m else m * (10 : ℚ) ^ (sgn * (digitsVal ds : Int))
  | _ => m

/-- JS `parseFloat` modelled over ℚ: skip leading whitespace, optional sign,
then the longest decimal-literal mantissa and optional exponent; `none`
plays the role of `NaN`. -/
def parseFloatQ (s : String) : Option ℚ :=
  let cs := s.data.dropWhile Char.isWhitespace
  let (sgn, cs1) : ℚ × List Char :=
    match cs with
    | '-' :: r => (-1, r)
    | '+' :: r => (1, r)
    | _ => (1, cs)
  match parseMantissa cs1 with
  | none => none
  | some (m, r) => some (sgn * applyExp m r)

/-- JS `Number.prototype.toFixed(1)` modelled over ℚ: print the sign of the
number, then the magnitude rounded to one decimal place, ties rounding up
on the magnitude (ECMA-262 picks the larger candidate). -/
def toFixed1 (x : ℚ) : String :=
  let sgn := if x < 0 then "-" else ""
  let n : Nat := (⌊|x| * 10 + 1 / 2⌋).toNat
  sgn ++ toString (n / 10) ++ "." ++ toString (n % 10)

/-- The serving multiplier of the recipe detail modal:
selected servings over the recipe base servings. -/
def servingMultiplier (servings baseServings : ℚ) : ℚ :=
  servings / baseServings

/-- `adjustQuantity` of the recipe detail modal: empty output for an absent
(or empty, which is falsy in JS) quantity, the input unchanged when
`parseFloat` fails, otherwise the scaled value formatted to one decimal. -/
def adjustQuantity (mult : ℚ) (quantity : Option String) : String :=
  match quantity with
  | none => ""
  | some q =>
    if q = "" then ""
    else
      match parseFloatQ q with
      | none => q
      | some v => toFixed1 (v * mult)

/-! ## Chat page recipe handling (`frontend/app/chat/page.tsx`)

`handleSend` converts each recipe of a chat response into a card, fetching
nutrition data from the store (`getRecipeById`) only for dataset-backed
recipes; `handleRecipeClick` opens a card, preferring the stored
in-conversation payload for ephemeral (`modified_` / `session_`) recipes.
Structures carry exactly the fields this control flow reads; display-only
fields (name, tags, times, servings, steps) are omitted as they do not
influence any branch below. -/

/-- A recipe object of a chat response (`response.suggested_recipes`), with
`none` standing for an absent (undefined / null) JS field. -/
structure SuggestedRecipe where
  id : Option String
  source_ref : Option String
  calories : Option ℚ
  protein : Option ℚ
  carbs : Option ℚ
  fat : Option ℚ
  ingredients : Option (List String)
  deriving DecidableEq

/-- Nutrition summary assembled by `handleSend` for a recipe card. -/
structure Nutrition where
  calories : ℚ
  protein : ℚ
  carbs : ℚ
  fat : ℚ
  deriving DecidableEq

/-- A chat recipe card (`ChatRecipe` in the page): synthetic unique id,
nutrition numbers, and the full in-conversation recipe payload. -/
structure ChatRecipe where
  id : String
  nutrition : Nutrition
  fullRecipe : Option SuggestedRecipe
  deriving DecidableEq

/-- JS `a || b` on optional strings: absent and empty strings are falsy. -/
def jsOr (a b : Option String) : Option String :=
  match a with
  | some s => if s = "" then b else some s
  | none => b

/-- `recipe.id?.toString() || recipe.source_ref` of `handleSend`. -/
def recipeIdOf (r : SuggestedRecipe) : Option String :=
  jsOr r.id r.source_ref

/-- Boolean prefix test on character lists (JS `String.prototype.startsWith`). -/
def listIsPrefix : List Char → List Char → Bool
  | [], _ => true
  | _ :: _, [] => false
  | p :: ps, c :: cs => p == c && listIsPrefix ps cs

/-- JS `s.startsWith(p)`. -/
def strStartsWith (s p : String) : Bool :=
  listIsPrefix p.data s.data

/-- The ephemeral identifier namespace: ids beginning with `modified_` or
`session_`, which do not exist in the persistent dataset. -/
def isEphemeralId (s : String) : Bool :=
  strStartsWith s "modified_" || strStartsWith s "session_"

/-- The `recipeId && recipeId !== '0'` truthiness test of `handleSend`. -/
def goodId : Option String → Bool
  | none => false
  | some s => !(s == "") && !(s == "0")

/-- The `isModified` flag of `handleSend`: the resolved id exists and lies
in the ephemeral namespace. -/
def isModifiedOf (r : SuggestedRecipe) : Bool :=
  match recipeIdOf r with
  | some rid => !(rid == "") && isEphemeralId rid
  | none => false

/-- Whether `handleSend` issues the nutrition store fetch (`getRecipeById`)
for this recipe: a good non-ephemeral id with no nutrition data attached. -/
def sendFetchesById (r : SuggestedRecipe) : Bool :=
  goodId (recipeIdOf r) && !(isModifiedOf r) && !(r.calories.isSome)

/-- The unique card id chosen by `handleSend`: the resolved id when good,
otherwise a synthetic `chat-recipe-` id from timestamp and index. -/
def chatUniqueId (ts idx : Nat) (r : SuggestedRecipe) : String :=
  if goodId (recipeIdOf r) then (recipeIdOf r).getD ""
  else "chat-recipe-" ++ toString ts ++ "-" ++ toString idx

/-- Per-recipe conversion of `handleSend`: build the card, taking nutrition
from the payload when present and from the store fetch when it is issued
and succeeds (a failed fetch keeps the defaulted payload numbers). -/
def convertRecipe (fetch : String → Option Nutrition) (ts idx : Nat)
    (r : SuggestedRecipe) : ChatRecipe :=
  let base : Nutrition :=
    ⟨r.calories.getD 0, r.protein.getD 0, r.carbs.getD 0, r.fat.getD 0⟩
  let nd : Nutrition :=
    if sendFetchesById r then
      match fetch ((recipeIdOf r).getD "") with
      | some d => d
      | none => base
    else base
  { id := chatUniqueId ts idx r, nutrition := nd, fullRecipe := some r }

/-- The possible outcomes of `handleRecipeClick`. -/
inductive ClickAction where
  | showStoredModified
  | fetchById (id : String)
  | showStored
  | noAction
  deriving DecidableEq

/-- The `fullRecipe.ingredients?.length > 0` test of `handleRecipeClick`. -/
def hasStoredIngredients (r : ChatRecipe) : Bool :=
  match r.fullRecipe with
  | none => false
  | some fr => 0 < (fr.ingredients.getD []).length

/-- `handleRecipeClick`: ephemeral recipes with a stored payload open from
the payload; otherwise any id not in the synthetic `chat-recipe-` namespace
is fetched from the store; otherwise a stored payload is used; else nothing. -/
def handleRecipeClick (r : ChatRecipe) : ClickAction :=
  if isEphemeralId r.id && hasStoredIngredients r then .showStoredModified
  else if !(r.id == "") && !(strStartsWith r.id "chat-recipe-") then .fetchById r.id
  else if hasStoredIngredients r then .showStored
  else .noAction

/-- A modified recipe card whose in-conversation payload is missing. -/
def orphanModifiedCard : ChatRecipe :=
  { id := "modified_1", nutrition := ⟨0, 0, 0, 0⟩, fullRecipe := none }

/-- A modified recipe of a chat response carrying its payload. -/
def demoModifiedRecipe : SuggestedRecipe :=
  { id := some "modified_7", source_ref := none, calories := none, protein := none,
    carbs := none, fat := none, ingredients := some ["tofu"] }

/-! ## Chat error handling (`handleSend` of the chat page and `handleSubmit`
of `ChatPlanning.tsx`)

Both handlers append the user turn, then await the backend call; a resolved
call appends the assistant reply (with recipe cards on the chat page), and a
thrown error appends a fixed apology as an assistant turn.  The error value
is a parameter so independence of the reply from it is expressible. -/

/-- Message role of the chat transcript. -/
inductive Role where
  | user
  | assistant
  deriving DecidableEq

/-- A chat page message: role, text content, optional recipe cards. -/
structure ChatMessage where
  role : Role
  content : String
  recipes : Option (List ChatRecipe)
  deriving DecidableEq

/-- The backend chat response consumed by the frontend. -/
structure ChatResponse where
  reply : String
  suggested_recipes : List SuggestedRecipe
  deriving DecidableEq

/-- The fixed apology of the chat page error path. -/
def chatErrorReply : String := "Sorry, I encountered an error. Please try again."

/-- The message-list update performed by `handleSend` of the chat page:
append the user turn, then either the assistant reply with converted recipe
cards, or the fixed apology with no recipes when the call threw. -/
def handleSendMessages (prev : List ChatMessage) (userContent : String)
    (fetch : String → Option Nutrition) (ts : Nat)
    (outcome : Except String ChatResponse) : List ChatMessage :=
  let afterUser := prev ++ [{ role := .user, content := userContent, recipes := none }]
  match outcome with
  | .ok resp =>
    let cards := resp.suggested_recipes.enum.map fun p => convertRecipe fetch ts p.1 p.2
    afterUser ++ [{ role := .assistant, content := resp.reply, recipes := some cards }]
  | .error _ =>
    afterUser ++ [{ role := .assistant, content := chatErrorReply, recipes := none }]

/-- A message of the planning widget transcript. -/
structure PlanMessage where
  role : Role
  content : String
  deriving DecidableEq

/-- Weekly menu payload of the planning widget (display-only contents). -/
structure WeeklyMenu where
  name : String
  deriving DecidableEq

/-- The backend response consumed by the planning widget. -/
structure PlanResponse where
  reply : String
  suggested_recipes : List SuggestedRecipe
  weekly_menu : Option WeeklyMenu
  deriving DecidableEq

/-- The fixed apology of the planning widget error path. -/
def planningErrorReply : String := "Sorry, something went wrong. Please try again."

/-- The component state touched by `handleSubmit` of `ChatPlanning.tsx`. -/
structure PlanningState where
  messages : List PlanMessage
  suggestedRecipes : List SuggestedRecipe
  weeklyMenu : Option WeeklyMenu
  deriving DecidableEq

/-- The state update performed by `handleSubmit`: append the user turn, then
on success the assistant reply plus the response recipes and menu, and on a
thrown error only the fixed apology (recipes and menu state untouched). -/
def handleSubmit (st : PlanningState) (userMessage : String)
    (outcome : Except String PlanResponse) : PlanningState :=
  let afterUser : PlanningState :=
    { st with messages := st.messages ++ [{ role := .user, content := userMessage }] }
  match outcome with
  | .ok resp =>
    { messages := afterUser.messages ++ [{ role := .assistant, content := resp.reply }],
      suggestedRecipes := resp.suggested_recipes,
      weeklyMenu := resp.weekly_menu }
  | .error _ =>
    { afterUser with
      messages := afterUser.messages ++ [{ role := .assistant, content := planningErrorReply }] }

/-! ## Backend RAG pipeline, modelled from the specification

The backend Python sources (conversation memory, retriever, re-ranker,
generator, classifier, query transformer) are not part of this snapshot —
only the specification and the change log describe them — so the following
definitions are written from the specification text and each doc comment
says so. -/

/-- Modelled from the spec: a conversation turn of the per-session memory
(`conversation_memory` is absent from the snapshot); role and text content,
created once and never mutated. -/
structure Turn where
  role : Role
  content : String
  deriving DecidableEq

/-- Modelled from the spec: a session memory is its turns in submission
order, oldest first (writes of a session are applied in submission order). -/
abbrev SessionStore := List Turn

/-- Modelled from the spec: `recordUserMessage` appends a user turn. -/
def recordUserMessage (store : SessionStore) (text : String) : SessionStore :=
  store ++ [{ role := .user, content := text }]

/-- Modelled from the spec: `recordAssistantResponse` appends an assistant
turn. -/
def recordAssistantResponse (store : SessionStore) (text : String) : SessionStore :=
  store ++ [{ role := .assistant, content := text }]

/-- Modelled from the spec: `getContextForPrompt` returns the most recent
`maxTurns` turns, oldest first, as a read that leaves the store unchanged
(the returned store is the post-call state). -/
def getContextForPrompt (store : SessionStore) (maxTurns : Nat) :
    List Turn × SessionStore :=
  (store.drop (store.length - maxTurns), store)

/-- Modelled from the spec: a retrieval candidate — recipe identifier,
vector similarity score, and the metadata the post-filters inspect
(`recipe_rag` retrieval is absent from the snapshot). -/
structure RetrievalCandidate where
  recipeId : String
  similarity : ℚ
  tags : List String
  totalTime : Nat
  sourceType : String
  deriving DecidableEq

/-- Modelled from the spec: the post-filters not natively supported by the
index — dietary tag intersection, max-time threshold, source-type
restriction. -/
structure RetrievalFilters where
  dietary : List String
  maxTime : Option Nat
  sourceType : Option String
  deriving DecidableEq

/-- Modelled from the spec: whether one candidate passes every post-filter. -/
def passesFilters (f : RetrievalFilters) (c : RetrievalCandidate) : Bool :=
  f.dietary.all (fun d => c.tags.contains d) &&
    (match f.maxTime with
     | none => true
     | some t => c.totalTime ≤ t) &&
    (match f.sourceType with
     | none => true
     | some s => c.sourceType == s)

/-- Modelled from the spec: drop candidates whose recipe identifier was
already seen, keeping the first occurrence of each identifier. -/
def dedupeByIdAux (seen : List String) : List RetrievalCandidate → List RetrievalCandidate
  | [] => []
  | c :: l =>
    if seen.contains c.recipeId then dedupeByIdAux seen l
    else c :: dedupeByIdAux (c.recipeId :: seen) l

/-- Modelled from the spec: deduplicate a candidate list by recipe
identifier, preserving first occurrences in order. -/
def dedupeById (l : List RetrievalCandidate) : List RetrievalCandidate :=
  dedupeByIdAux [] l

/-- Modelled from the spec: `retrieve` over-fetches 3× `desiredCount` from
the vector index, removes duplicate identifiers, applies the post-filters
discarding failures while preserving relative order, and returns the
surviving pool as-is even when it is smaller than `desiredCount`. -/
def retrieve (index : Nat → List RetrievalCandidate) (f : RetrievalFilters)
    (desiredCount : Nat) : List RetrievalCandidate :=
  (dedupeById (index (3 * desiredCount))).filter (passesFilters f)

/-- Modelled from the spec: a re-ranked candidate with its 0–10 LLM
relevance score (`rerank_results` is absent from the snapshot). -/
structure RankedCandidate where
  cand : RetrievalCandidate
  score : Nat
  deriving DecidableEq

/-- Modelled from the spec: the outcome of the batched scoring call —
either the whole call failed, or each candidate position optionally has a
parsed score (a missing position is a per-candidate parse failure). -/
inductive RerankOutcome where
  | batchFailure
  | scores (parsed : Nat → Option Nat)

/-- Modelled from the spec: attach scores to the candidates; a candidate
whose score could not be parsed receives 0 rather than being dropped. -/
def assignScores (cands : List RetrievalCandidate) (parsed : Nat → Option Nat) :
    List RankedCandidate :=
  cands.enum.map fun p => { cand := p.2, score := (parsed p.1).getD 0 }

/-- Modelled from the spec: stable descending insertion — an element goes
before the first element whose score is at most its own, so earlier input
elements precede later equally-scored ones. -/
def insertRanked (x : RankedCandidate) : List RankedCandidate → List RankedCandidate
  | [] => [x]
  | y :: l => if y.score ≤ x.score then x :: y :: l else y :: insertRanked x l

/-- Modelled from the spec: stable sort by relevance score descending. -/
def sortRanked : List RankedCandidate → List RankedCandidate
  | [] => []
  | x :: l => insertRanked x (sortRanked l)

/-- Modelled from the spec: `rerank` — when the batch call failed, return
the input order unchanged; otherwise sort the scored candidates stably by
score descending. -/
def rerank (cands : List RetrievalCandidate) (out : RerankOutcome) :
    List RetrievalCandidate :=
  match out with
  | .batchFailure => cands
  | .scores parsed => (sortRanked (assignScores cands parsed)).map fun rc => rc.cand

/-- Modelled from the spec: a canonical recipe record as selected by the
generator (identifier and name stand in for the full record). -/
structure RecipeRecord where
  recipeId : String
  name : String
  deriving DecidableEq

/-- The configurable 10-recipe cap. -/
def recipeCap : Nat := 10

/-- Modelled from the spec: the fixed default count when no quantity is
requested. -/
def defaultRecipeCount : Nat := 5

/-- The explicit cap notice appended to the reply when the request exceeded
the cap. -/
def capNoticeText : String := " Showing the maximum of 10 recipes."

/-- The shortfall notice appended when fewer recipes were available than
targeted. -/
def shortfallNoticeText : String := " Fewer recipes than requested were found."

/-- Modelled from the spec: the generation selection policy — with
`quantity = q` return `min(q, cap, available)` recipes in rank order and
state the cap in the reply when `q` exceeds the cap; state the shortfall
when fewer were available than targeted; with no quantity use the fixed
default count (`_generate_recommendations_with_llm` is absent from the
snapshot). -/
def generate (ranked : List RecipeRecord) (quantity : Option Nat)
    (replyBase : String) : String × List RecipeRecord :=
  let target :=
    match quantity with
    | some q => min q recipeCap
    | none => defaultRecipeCount
  let selected := ranked.take target
  let capHit : Bool :=
    match quantity with
    | some q => decide (recipeCap < q)
    | none => false
  let reply := replyBase ++ (if capHit then capNoticeText else "")
    ++ (if selected.length < target then shortfallNoticeText else "")
  (reply, selected)

/-- Modelled from the spec: the enumerated conversational intents. -/
inductive Intent where
  | show_recipe
  | answer_question
  | modification
  | new_request
  | weekly_menu
  | nutrition
  | ingredients
  deriving DecidableEq

/-- Canonical label of each intent. -/
def intentLabel : Intent → String
  | .show_recipe => "show_recipe"
  | .answer_question => "answer_question"
  | .modification => "modification"
  | .new_request => "new_request"
  | .weekly_menu => "weekly_menu"
  | .nutrition => "nutrition"
  | .ingredients => "ingredients"

/-- The enumerated label set the classifier may emit. -/
def validIntentLabels : List String :=
  ["show_recipe", "answer_question", "modification", "new_request",
   "weekly_menu", "nutrition", "ingredients"]

/-- Modelled from the spec: recognise an emitted label. -/
def parseIntentLabel (label : String) : Option Intent :=
  if label = "show_recipe" then some .show_recipe
  else if label = "answer_question" then some .answer_question
  else if label = "modification" then some .modification
  else if label = "new_request" then some .new_request
  else if label = "weekly_menu" then some .weekly_menu
  else if label = "nutrition" then some .nutrition
  else if label = "ingredients" then some .ingredients
  else none

/-- Modelled from the spec: the classifier keeps a recognised label with
the model confidence and reclassifies any label outside the enumerated set
as `new_request` with confidence 0 (`chat/intent` is absent from the
snapshot). -/
def classify (label : String) (confidence : ℚ) : Intent × ℚ :=
  match parseIntentLabel label with
  | some i => (i, confidence)
  | none => (Intent.new_request, 0)

/-- Modelled from the spec: conversational filler stopwords used to detect
a degenerate transformed query. -/
def stopwords : List String :=
  ["a", "an", "the", "and", "or", "of", "to", "for", "with", "in", "on",
   "some", "me", "i", "my", "please"]

/-- Split a character list on spaces (JS / Python `split` semantics: the
empty input yields one empty word). -/
def splitOnSpace : List Char → List (List Char)
  | [] => [[]]
  | c :: cs =>
    if c = ' ' then [] :: splitOnSpace cs
    else
      match splitOnSpace cs with
      | [] => [[c]]
      | w :: ws => (c :: w) :: ws

/-- Modelled from the spec: a degenerate model output — empty, or every
word a stopword. -/
def isDegenerate (s : String) : Bool :=
  (splitOnSpace s.data).all fun w =>
    w.isEmpty || stopwords.contains (String.mk (w.map Char.toLower))

/-- Modelled from the spec: `transformQuery` keeps the model output unless
it is empty or degenerate, in which case it falls back to the raw utterance
verbatim (`transform_query` is absent from the snapshot). -/
def transformQuery (raw modelOutput : String) : String :=
  if isDegenerate modelOutput then raw else modelOutput

/-- Demo recipe records for concrete evaluation. -/
def demoRecipes (n : Nat) : List RecipeRecord :=
  (List.range n).map fun i => { recipeId := toString i, name := toString i }

/-- A demo retrieval candidate with one tag. -/
def demoCandidate (id tag : String) : RetrievalCandidate :=
  { recipeId := id, similarity := 1, tags := [tag], totalTime := 20,
    sourceType := "dataset" }

/-- A demo vector index whose result contains a duplicated identifier. -/
def demoIndex : Nat → List RetrievalCandidate :=
  fun _ => [demoCandidate "r1" "vegan", demoCandidate "r2" "meat",
    demoCandidate "r1" "vegan"]

/-- Demo post-filters keeping only vegan-tagged candidates. -/
def demoFilters : RetrievalFilters :=
  { dietary := ["vegan"], maxTime := none, sourceType := none }

/-- A demo two-candidate pool. -/
def demoCands2 : List RetrievalCandidate :=
  [demoCandidate "r1" "vegan", demoCandidate "r2" "meat"]

/-- The empty string does not parse as a number. -/
theorem parseFloatQ_empty : parseFloatQ "" = none := rfl

/-- An ephemeral identifier starts with the character m or s. -/
theorem ephemeralId_head {s : String} (h : isEphemeralId s = true) :
    ∃ c t, s.data = c :: t ∧ (c = 'm' ∨ c = 's') := by
  have hm : "modified_".data = ['m', 'o', 'd', 'i', 'f', 'i', 'e', 'd', '_'] := rfl
  have hs : "session_".data = ['s', 'e', 's', 's', 'i', 'o', 'n', '_'] := rfl
  unfold isEphemeralId strStartsWith at h
  rw [hm, hs] at h
  cases hd : s.data with
  | nil => rw [hd] at h; simp [listIsPrefix] at h
  | cons a t =>
    rw [hd] at h
    simp only [listIsPrefix, Bool.or_eq_true, Bool.and_eq_true, beq_iff_eq] at h
    rcases h with ⟨h1, _⟩ | ⟨h1, _⟩
    · exact ⟨a, t, rfl, Or.inl h1.symm⟩
    · exact ⟨a, t, rfl, Or.inr h1.symm⟩

/-- An ephemeral identifier is not the empty string. -/
theorem ephemeralId_ne_empty {s : String} (h : isEphemeralId s = true) :
    (s == "") = false := by
  obtain ⟨c, t, hd, _⟩ := ephemeralId_head h
  have hne : s ≠ "" := by
    intro e
    rw [e] at hd
    exact absurd hd (by simp)
  exact beq_eq_false_iff_ne.mpr hne

/-- An ephemeral identifier is never in the synthetic chat-recipe namespace. -/
theorem ephemeralId_not_chat {s : String} (h : isEphemeralId s = true) :
    strStartsWith s "chat-recipe-" = false := by
  obtain ⟨c, t, hd, hc⟩ := ephemeralId_head h
  have hcs : "chat-recipe-".data = 'c' :: "hat-recipe-".data := rfl
  unfold strStartsWith
  rw [hcs, hd]
  rcases hc with rfl | rfl <;> simp [listIsPrefix]

/-- Inserting into a list permutes with consing. -/
theorem insertRanked_perm (x : RankedCandidate) (l : List RankedCandidate) :
    (insertRanked x l).Perm (x :: l) := by
  induction l with
  | nil => simp [insertRanked]
  | cons y t ih =>
    rw [insertRanked]
    split
    · exact List.Perm.refl _
    · exact (ih.cons y).trans (List.Perm.swap x y t)

/-- The stable sort permutes its input. -/
theorem sortRanked_perm (l : List RankedCandidate) : (sortRanked l).Perm l := by
  induction l with
  | nil => exact List.Perm.refl _
  | cons x t ih =>
    rw [sortRanked]
    exact (insertRanked_perm x _).trans (ih.cons x)

/-- Membership after insertion. -/
theorem mem_insertRanked {a x : RankedCandidate} {l : List RankedCandidate} :
    a ∈ insertRanked x l ↔ a = x ∨ a ∈ l := by
  rw [(insertRanked_perm x l).mem_iff]
  simp

/-- Insertion preserves the non-increasing score ordering. -/
theorem insertRanked_pairwise {x : RankedCandidate} {l : List RankedCandidate}
    (h : l.Pairwise fun a b => b.score ≤ a.score) :
    (insertRanked x l).Pairwise fun a b => b.score ≤ a.score := by
  induction l with
  | nil => simp [insertRanked]
  | cons y t ih =>
    rw [List.pairwise_cons] at h
    rw [insertRanked]
    split
    next hc =>
      rw [List.pairwise_cons]
      refine ⟨?_, List.pairwise_cons.mpr h⟩
      intro b hb
      rcases List.mem_cons.mp hb with rfl | hb
      · exact hc
      · exact (h.1 b hb).trans hc
    next hc =>
      rw [List.pairwise_cons]
      refine ⟨?_, ih h.2⟩
      intro b hb
      rcases mem_insertRanked.mp hb with rfl | hb
      · omega
      · exact h.1 b hb

/-- The stable sort orders scores non-increasingly. -/
theorem sortRanked_pairwise (l : List RankedCandidate) :
    (sortRanked l).Pairwise fun a b => b.score ≤ a.score := by
  induction l with
  | nil => simp [sortRanked]
  | cons x t ih =>
    rw [sortRanked]
    exact insertRanked_pairwise ih

/-- Restricting to one score value, insertion of an element of that score
puts it in front (it goes before every equal score already present). -/
theorem filter_insertRanked_eq (x : RankedCandidate) (l : List RankedCandidate)
    (s : Nat) (hs : x.score = s) :
    (insertRanked x l).filter (fun c => c.score == s) =
      x :: l.filter fun c => c.score == s := by
  induction l with
  | nil => simp [insertRanked, List.filter, hs]
  | cons y t ih =>
    rw [insertRanked]
    split
    next hc =>
      simp [List.filter_cons, hs]
    next hc =>
      have hy : (y.score == s) = false := by
        simp only [beq_eq_false_iff_ne]
        omega
      simp only [List.filter_cons, hy, ih]
      simp

/-- Restricting to one score value, insertion of an element of a different
score is invisible. -/
theorem filter_insertRanked_ne (x : RankedCandidate) (l : List RankedCandidate)
    (s : Nat) (hs : x.score ≠ s) :
    (insertRanked x l).filter (fun c => c.score == s) =
      l.filter fun c => c.score == s := by
  induction l with
  | nil => simp [insertRanked, List.filter_cons, hs]
  | cons y t ih =>
    rw [insertRanked]
    split
    next hc =>
      simp [List.filter_cons, hs]
    next hc =>
      simp only [List.filter_cons, ih]

/-- Stability of the sort: the subsequence of any fixed score value is the
same before and after sorting. -/
theorem sortRanked_filter_eq (l : List RankedCandidate) (s : Nat) :
    (sortRanked l).filter (fun c => c.score == s) =
      l.filter fun c => c.score == s := by
  induction l with
  | nil => rfl
  | cons x t ih =>
    rw [sortRanked]
    by_cases hs : x.score = s
    · rw [filter_insertRanked_eq x _ s hs, ih, List.filter_cons]
      simp [hs]
    · rw [filter_insertRanked_ne x _ s hs, ih, List.filter_cons]
      simp [hs]

/-- The deduplicated list is a sublist of the input. -/
theorem dedupeByIdAux_sublist (l : List RetrievalCandidate) :
    ∀ seen, (dedupeByIdAux seen l).Sublist l := by
  induction l with
  | nil => intro seen; simp [dedupeByIdAux]
  | cons c t ih =>
    intro seen
    rw [dedupeByIdAux]
    split
    · exact (ih seen).cons c
    · exact (ih (c.recipeId :: seen)).cons₂ c

/-- Identifiers surviving deduplication avoid the seen set and repeat
nowhere. -/
theorem dedupeByIdAux_ids_nodup (l : List RetrievalCandidate) :
    ∀ seen, ((dedupeByIdAux seen l).map (fun c => c.recipeId)).Nodup ∧
      ∀ x ∈ (dedupeByIdAux seen l).map (fun c => c.recipeId), x ∉ seen := by
  induction l with
  | nil => intro seen; simp [dedupeByIdAux]
  | cons c t ih =>
    intro seen
    rw [dedupeByIdAux]
    split
    next => exact ih seen
    next hc =>
      obtain ⟨h1, h2⟩ := ih (c.recipeId :: seen)
      simp only [List.map_cons, List.nodup_cons]
      refine ⟨⟨?_, h1⟩, ?_⟩
      · intro hmem
        exact (h2 _ hmem) (List.mem_cons_self _ _)
      · intro x hx
        rcases List.mem_cons.mp hx with rfl | hx
        · intro hxs
          apply hc
          simpa [List.contains, List.elem_eq_mem] using hxs
        · exact fun hxs => (h2 x hx) (List.mem_cons_of_mem _ hxs)

/-- No recipe identifier repeats after deduplication. -/
theorem dedupeById_ids_nodup (l : List RetrievalCandidate) :
    ((dedupeById l).map (fun c => c.recipeId)).Nodup :=
  (dedupeByIdAux_ids_nodup l []).1

/-- C1 counterexample: a ModifiedRecipe card whose in-conversation payload is
absent is looked up through the store fetch `getRecipeById` even though its
identifier lies in the ephemeral namespace, refuting the claim that the
frontend never issues a store fetch for an ephemeral identifier. -/
theorem C1_counterexample :
    isEphemeralId orphanModifiedCard.id = true ∧
    handleRecipeClick orphanModifiedCard = ClickAction.fetchById "modified_1" := by
  constructor
  · decide
  · decide

/-- C1 (amended): ephemeral identifiers are namespaced apart from persisted
ones; `handleSend` never issues the nutrition store fetch for an ephemeral
identifier, and on click an ephemeral recipe with a stored in-conversation
payload is opened from that payload without a store fetch — but an ephemeral
recipe whose payload is missing falls back to the store fetch. -/
theorem C1_ephemeral_lookup (r : SuggestedRecipe) (rid : String) (c : ChatRecipe) :
    (recipeIdOf r = some rid → isEphemeralId rid = true → sendFetchesById r = false) ∧
    (isEphemeralId c.id = true → hasStoredIngredients c = true →
      handleRecipeClick c = ClickAction.showStoredModified) ∧
    (isEphemeralId c.id = true → hasStoredIngredients c = false →
      handleRecipeClick c = ClickAction.fetchById c.id) := by
  refine ⟨?_, ?_, ?_⟩
  · intro hr he
    have hmod : isModifiedOf r = true := by
      simp [isModifiedOf, hr, he, ephemeralId_ne_empty he]
    simp [sendFetchesById, hmod]
  · intro h1 h2
    simp [handleRecipeClick, h1, h2]
  · intro h1 h2
    simp [handleRecipeClick, h1, h2, ephemeralId_ne_empty h1, ephemeralId_not_chat h1]

/-- Witness for C1 at concrete inputs: a modified recipe of a response is
not store-fetched by `handleSend`, its card opens from the stored payload,
and the payloadless modified card falls back to the store fetch. -/
theorem C1_ephemeral_lookup_witness :
    sendFetchesById demoModifiedRecipe = false ∧
    handleRecipeClick (convertRecipe (fun _ => none) 0 0 demoModifiedRecipe) =
      ClickAction.showStoredModified ∧
    handleRecipeClick orphanModifiedCard = ClickAction.fetchById orphanModifiedCard.id := by
  refine ⟨?_, ?_, ?_⟩
  · exact (C1_ephemeral_lookup demoModifiedRecipe "modified_7"
      orphanModifiedCard).1 (by decide) (by decide)
  · exact (C1_ephemeral_lookup demoModifiedRecipe "modified_7"
      (convertRecipe (fun _ => none) 0 0 demoModifiedRecipe)).2.1 (by decide) (by decide)
  · exact (C1_ephemeral_lookup demoModifiedRecipe "modified_7"
      orphanModifiedCard).2.2 (by decide) (by decide)

/-- C8: on any error thrown while sending a chat message, both frontend
handlers append a fixed apology as an assistant turn: the appended reply is
a constant independent of the thrown error (no raw error text can reach the
user), carries no recipe cards on the chat page, and leaves the planning
widget recipe and menu state untouched. -/
theorem C8_frontend_error_reply (prev : List ChatMessage) (userContent : String)
    (fetch : String → Option Nutrition) (ts : Nat) (e : String)
    (st : PlanningState) (u e2 : String) :
    handleSendMessages prev userContent fetch ts (Except.error e) =
      prev ++ [{ role := .user, content := userContent, recipes := none },
        { role := .assistant, content := chatErrorReply, recipes := none }] ∧
    handleSubmit st u (Except.error e2) =
      { st with messages := st.messages ++ [{ role := .user, content := u },
        { role := .assistant, content := planningErrorReply }] } := by
  constructor
  · simp [handleSendMessages]
  · simp [handleSubmit]

/-- C10: the ingredient-quantity scaling function of the recipe detail modal
is total: an absent quantity yields the empty string, a quantity string that
does not parse as a number is returned unchanged, and a numeric quantity is
returned as the parsed value times (selected servings / base servings),
formatted to one decimal place. -/
theorem C10_adjustQuantity_cases (s b : ℚ) (q : String) (v : ℚ) :
    adjustQuantity (servingMultiplier s b) none = "" ∧
    (parseFloatQ q = none → adjustQuantity (servingMultiplier s b) (some q) = q) ∧
    (parseFloatQ q = some v →
      adjustQuantity (servingMultiplier s b) (some q) = toFixed1 (v * (s / b))) := by
  refine ⟨rfl, ?_, ?_⟩
  · intro h
    by_cases hq : q = ""
    · subst hq; rfl
    · simp [adjustQuantity, hq, h]
  · intro h
    by_cases hq : q = ""
    · rw [hq, parseFloatQ_empty] at h; exact absurd h (by simp)
    · simp only [adjustQuantity, if_neg hq, h]
      rfl

/-- Witness for C10 at concrete inputs: a non-numeric quantity is returned
unchanged, and a numeric one is scaled by the serving ratio. -/
theorem C10_adjustQuantity_cases_witness :
    adjustQuantity (servingMultiplier 6 4) (some "two") = "two" ∧
    adjustQuantity (servingMultiplier 6 4) (some "2.5") = toFixed1 ((5 / 2) * ((6 : ℚ) / 4)) := by
  constructor
  · exact (C10_adjustQuantity_cases 6 4 "two" 0).2.1 rfl
  · refine (C10_adjustQuantity_cases 6 4 "2.5" (5 / 2)).2.2 ?_
    have h : "2.5".data = ['2', '.', '5'] := rfl
    simp [parseFloatQ, h, parseMantissa, takeDigits, digitVal, digitsVal, fracVal,
      applyExp, List.dropWhile]
    norm_num

/-- C2 counterexample: with quantity 11 and only 3 candidates available the
generator returns the 3 available recipes, not 10, refuting the claim that
quantity above 10 always yields exactly 10 recipes. -/
theorem C2_counterexample :
    ((generate (demoRecipes 3) (some 11) "").2).length = 3 ∧
    ((generate (demoRecipes 3) (some 11) "").2).length ≠ 10 := by
  constructor
  · decide
  · decide

/-- C2 (amended): with quantity `q ≤ 10` and at least `q` candidates
available exactly `q` recipes are returned; with `q > 10` and at least 10
candidates available exactly 10 recipes are returned and the reply contains
the explicit cap notice. -/
theorem C2_generate_quantity (ranked : List RecipeRecord) (q : Nat) (base : String) :
    (q ≤ 10 → q ≤ ranked.length → ((generate ranked (some q) base).2).length = q) ∧
    (10 < q → 10 ≤ ranked.length →
      ((generate ranked (some q) base).2).length = 10 ∧
      ∃ pre post, (generate ranked (some q) base).1 = pre ++ capNoticeText ++ post) := by
  constructor
  · intro h1 h2
    simp [generate, recipeCap, List.length_take]
    omega
  · intro h1 h2
    have hmin : min q recipeCap = 10 := by
      simp [recipeCap]
      omega
    have hc : decide (recipeCap < q) = true := decide_eq_true (by simpa [recipeCap] using h1)
    refine ⟨?_, base, "", ?_⟩
    · simp [generate, List.length_take, hmin]
      omega
    · simp only [generate, hmin, hc, if_true]
      have hlen : ¬ ((ranked.take 10).length < 10) := by
        simp [List.length_take]
        omega
      rw [if_neg hlen]

/-- Witness for C2 at concrete inputs: 12 available candidates, quantity 2
yields 2 recipes; quantity 11 yields 10 recipes and the cap notice. -/
theorem C2_generate_quantity_witness :
    ((generate (demoRecipes 12) (some 2) "r").2).length = 2 ∧
    ((generate (demoRecipes 12) (some 11) "r").2).length = 10 ∧
    ∃ pre post, (generate (demoRecipes 12) (some 11) "r").1 =
      pre ++ capNoticeText ++ post := by
  refine ⟨?_, ?_, ?_⟩
  · exact (C2_generate_quantity (demoRecipes 12) 2 "r").1 (by decide) (by decide)
  · exact ((C2_generate_quantity (demoRecipes 12) 11 "r").2 (by decide) (by decide)).1
  · exact ((C2_generate_quantity (demoRecipes 12) 11 "r").2 (by decide) (by decide)).2

/-- C3: the re-ranked sequence is ordered by relevance score non-increasing
and the sort is stable — the subsequence at any fixed score equals the
pre-sort subsequence, so equally-scored candidates keep their original
retrieval order; the re-ranker output is the sorted sequence projected back
to candidates. -/
theorem C3_rerank_sorted_stable (cands : List RetrievalCandidate)
    (parsed : Nat → Option Nat) (s : Nat) :
    ((sortRanked (assignScores cands parsed)).Pairwise fun a b => b.score ≤ a.score) ∧
    (sortRanked (assignScores cands parsed)).filter (fun c => c.score == s) =
      (assignScores cands parsed).filter (fun c => c.score == s) ∧
    rerank cands (RerankOutcome.scores parsed) =
      (sortRanked (assignScores cands parsed)).map fun rc => rc.cand :=
  ⟨sortRanked_pairwise _, sortRanked_filter_eq _ _, rfl⟩

/-- C4: a candidate whose score failed to parse receives score 0 and stays
in the output (the re-ranked list is a permutation of the input), and a
whole-batch failure returns the input order unchanged. -/
theorem C4_rerank_fallbacks (cands : List RetrievalCandidate)
    (parsed : Nat → Option Nat) :
    rerank cands RerankOutcome.batchFailure = cands ∧
    (rerank cands (RerankOutcome.scores parsed)).Perm cands ∧
    ∀ p ∈ cands.enum, parsed p.1 = none →
      RankedCandidate.mk p.2 0 ∈ sortRanked (assignScores cands parsed) ∧
      p.2 ∈ rerank cands (RerankOutcome.scores parsed) := by
  have hmap : (assignScores cands parsed).map (fun rc => rc.cand) = cands := by
    simp [assignScores, List.map_map]
    exact List.enum_map_snd cands
  refine ⟨rfl, ?_, ?_⟩
  · have hperm := (sortRanked_perm (assignScores cands parsed)).map fun rc => rc.cand
    rw [hmap] at hperm
    exact hperm
  · intro p hp hnone
    have h1 : RankedCandidate.mk p.2 0 ∈ assignScores cands parsed := by
      have hm : RankedCandidate.mk p.2 ((parsed p.1).getD 0) ∈ assignScores cands parsed :=
        List.mem_map_of_mem _ hp
      rwa [hnone] at hm
    have h2 : RankedCandidate.mk p.2 0 ∈ sortRanked (assignScores cands parsed) :=
      ((sortRanked_perm _).mem_iff).mpr h1
    refine ⟨h2, ?_⟩
    have h3 := List.mem_map_of_mem (fun rc => rc.cand) h2
    simpa [rerank] using h3

/-- Witness for C4 at concrete inputs: a two-candidate pool with every
per-candidate parse failing keeps both candidates, the first at score 0,
and batch failure echoes the pool. -/
theorem C4_rerank_fallbacks_witness :
    rerank demoCands2 RerankOutcome.batchFailure = demoCands2 ∧
    RankedCandidate.mk (demoCandidate "r1" "vegan") 0 ∈
      sortRanked (assignScores demoCands2 fun _ => none) ∧
    demoCandidate "r1" "vegan" ∈ rerank demoCands2 (RerankOutcome.scores fun _ => none) := by
  have h := C4_rerank_fallbacks demoCands2 fun _ => none
  refine ⟨h.1, ?_, ?_⟩
  · exact (h.2.2 (0, demoCandidate "r1" "vegan") (by decide) rfl).1
  · exact (h.2.2 (0, demoCandidate "r1" "vegan") (by decide) rfl).2

/-- C5: the retrieval result has no duplicate recipe identifiers, the
post-filter only removes candidates (the result is a sublist of the
deduplicated pool, preserving relative order), and a post-filtered pool
smaller than the desired count is returned as-is. -/
theorem C5_retrieve_guarantees (index : Nat → List RetrievalCandidate)
    (f : RetrievalFilters) (k : Nat) :
    ((retrieve index f k).map (fun c => c.recipeId)).Nodup ∧
    (retrieve index f k).Sublist (dedupeById (index (3 * k))) ∧
    ((retrieve index f k).length < k →
      retrieve index f k = (dedupeById (index (3 * k))).filter (passesFilters f)) := by
  refine ⟨?_, List.filter_sublist _, fun _ => rfl⟩
  exact List.Nodup.sublist ((List.filter_sublist _).map _) (dedupeById_ids_nodup _)

/-- Witness for C5 at concrete inputs: an index answer with a duplicated
identifier and a filter discarding one candidate leaves a short, duplicate
free pool that is returned as-is. -/
theorem C5_retrieve_guarantees_witness :
    ((retrieve demoIndex demoFilters 5).map (fun c => c.recipeId)).Nodup ∧
    retrieve demoIndex demoFilters 5 =
      (dedupeById (demoIndex 15)).filter (passesFilters demoFilters) := by
  refine ⟨(C5_retrieve_guarantees demoIndex demoFilters 5).1, ?_⟩
  exact (C5_retrieve_guarantees demoIndex demoFilters 5).2.2 (by decide)

/-- C6: the classifier only ever produces a label of the enumerated set,
and any emitted label outside the set is reclassified as new_request with
confidence 0. -/
theorem C6_classifier_label_set (label : String) (conf : ℚ) :
    intentLabel (classify label conf).1 ∈ validIntentLabels ∧
    (label ∉ validIntentLabels → classify label conf = (Intent.new_request, 0)) := by
  constructor
  · rcases h : parseIntentLabel label with _ | i
    · simp [classify, h, intentLabel, validIntentLabels]
    · cases i <;> simp [classify, h, intentLabel, validIntentLabels]
  · intro hlabel
    have h : parseIntentLabel label = none := by
      unfold parseIntentLabel
      split_ifs with h1 h2 h3 h4 h5 h6 h7
      · exact absurd (by rw [h1]; decide) hlabel
      · exact absurd (by rw [h2]; decide) hlabel
      · exact absurd (by rw [h3]; decide) hlabel
      · exact absurd (by rw [h4]; decide) hlabel
      · exact absurd (by rw [h5]; decide) hlabel
      · exact absurd (by rw [h6]; decide) hlabel
      · exact absurd (by rw [h7]; decide) hlabel
      · rfl
    simp [classify, h]

/-- Witness for C6 at a concrete input: an unknown label collapses to
new_request with confidence 0. -/
theorem C6_classifier_label_set_witness :
    classify "banana" 1 = (Intent.new_request, 0) :=
  (C6_classifier_label_set "banana" 1).2 (by decide)

/-- C7: a degenerate model output makes the transformer return the raw
utterance verbatim, and the query reaching retrieval is never empty for a
non-empty utterance. -/
theorem C7_transform_fallback (raw out : String) :
    (isDegenerate out = true → transformQuery raw out = raw) ∧
    (raw ≠ "" → transformQuery raw out ≠ "") := by
  constructor
  · intro h
    simp [transformQuery, h]
  · intro hraw
    by_cases hd : isDegenerate out = true
    · simpa [transformQuery, hd] using hraw
    · have hout : out ≠ "" := by
        intro e
        apply hd
        rw [e]
        decide
      simpa [transformQuery, hd] using hout

/-- Witness for C7 at concrete inputs: a stopword-only output falls back to
the raw utterance, and a useful output keeps the query non-empty. -/
theorem C7_transform_fallback_witness :
    transformQuery "chicken rice no oven" "the and a" = "chicken rice no oven" ∧
    transformQuery "chicken rice no oven" "chicken rice stovetop" ≠ "" := by
  constructor
  · exact (C7_transform_fallback "chicken rice no oven" "the and a").1 (by decide)
  · exact (C7_transform_fallback "chicken rice no oven" "chicken rice stovetop").2
      (by decide)

/-- C9: reading the prompt context twice with no intervening write returns
identical results and leaves the store unchanged, and the result is the
most recent `n` turns of the submission-ordered session log, oldest first
(a suffix of the log of length `min n (length of the log)`). -/
theorem C9_context_idempotent_recent (store : SessionStore) (n : Nat) :
    (getContextForPrompt store n).1 =
      (getContextForPrompt (getContextForPrompt store n).2 n).1 ∧
    (getContextForPrompt store n).2 = store ∧
    ∃ pre, store = pre ++ (getContextForPrompt store n).1 ∧
      ((getContextForPrompt store n).1).length = min n store.length := by
  refine ⟨rfl, rfl, store.take (store.length - n), ?_, ?_⟩
  · exact (List.take_append_drop _ _).symm
  · simp [getContextForPrompt, List.length_drop]
    omega

end Foodify
